import Mathlib

/-!
# Single-table design over a composite-key document store: verification development

This file shallowly embeds the core of the repository (key codec, item
envelope, generic store access layer, entity repositories) and proves the
specified properties about it.

Embedding conventions:
* Go strings are Lean `String`s; `time.Time` is a `Nat` tick count; Go
  `float64` money amounts are `Rat` (the claims only compare them with `0`);
  Go `int`/`int32` are `Int`.
* The external DynamoDB-like store is out of scope of the repository; it is
  modelled from the contract the spec requires of it (atomic put that
  overwrites the item at the exact (PK, SK) pair, point get, range query by
  partition key plus sort-key "begins with", ascending sort-key order,
  `Limit`, `ExclusiveStartKey` resuming strictly after the given key, and a
  `LastEvaluatedKey` reported exactly when matching items remain beyond the
  returned page).  The table is a list of items kept sorted by (PK, SK).
* Go's `error` results become `Except` values; the distinguished outcomes
  (`ErrNotFound`, validation failures, marshalling failures, raw store
  failures) become constructors of `RepoError`.
-/

set_option maxHeartbeats 1000000

namespace SingleTable

/-- `models.User` (src/models/models.go): email, name and a creation
timestamp (`time.Time`, modelled as a `Nat`; the attribute codec stores it
losslessly, so round-trips are exact in the model). -/
structure User where
  email : String
  name : String
  createdAt : Nat
  deriving DecidableEq, Repr

/-- `models.Order` (src/models/models.go): order id, owning user email,
status, total (`float64`, modelled as `Rat`), product-id list, creation
timestamp. -/
structure Order where
  orderID : String
  userEmail : String
  status : String
  total : Rat
  products : List String
  createdAt : Nat
  deriving DecidableEq, Repr

/-- `models.Product` (src/models/models.go): product id, category, name,
price (`float64` as `Rat`), stock (`int` as `Int`). -/
structure Product where
  productID : String
  category : String
  name : String
  price : Rat
  stock : Int
  deriving DecidableEq, Repr

/-- `models.User.Validate` (src/models/models.go lines 16-24).  `some msg`
models returning `errors.New(msg)`, `none` models a nil error. -/
def User.validate (u : User) : Option String :=
  if u.email = "" then some "email is required"
  else if u.name = "" then some "name is required"
  else none

/-- `models.Order.Validate` (src/models/models.go lines 37-51). -/
def Order.validate (o : Order) : Option String :=
  if o.orderID = "" then some "order_id is required"
  else if o.userEmail = "" then some "user_email is required"
  else if o.status = "" then some "status is required"
  else if o.products.length = 0 then some "at least one product is required"
  else none

/-- `models.Product.Validate` (src/models/models.go lines 61-78). -/
def Product.validate (p : Product) : Option String :=
  if p.productID = "" then some "product_id is required"
  else if p.category = "" then some "category is required"
  else if p.name = "" then some "name is required"
  else if p.price ≤ 0 then some "price is required"
  else if p.stock < 0 then some "stock can't be less than 0"
  else none

/-! ## Key codec (src/repository/keys.go, src/internal/datastore/types.go) -/

/-- `NewUserPK` / `KeyFactory.NewUserPK`: `fmt.Sprintf("USER#%s", email)`. -/
def NewUserPK (email : String) : String := "USER#" ++ email

/-- `NewUserSK` / `KeyFactory.NewUserSK`: `fmt.Sprintf("PROFILE#%s", email)`. -/
def NewUserSK (email : String) : String := "PROFILE#" ++ email

/-- `NewOrderSK` / `KeyFactory.NewOrderSK`: `fmt.Sprintf("ORDER#%s", orderID)`. -/
def NewOrderSK (orderID : String) : String := "ORDER#" ++ orderID

/-- `KeyFactory.NewProductPK` / `KeyFactory.ProductPK`: the fixed catalog
partition `"PRODUCT#ALL"`. -/
def NewProductPK : String := "PRODUCT#ALL"

/-- `KeyFactory.NewProductSK`: `fmt.Sprintf("PRODUCT#%s", productID)`. -/
def NewProductSK (productID : String) : String := "PRODUCT#" ++ productID

/-- Entity-type tags (src/internal/datastore/types.go lines 10-14). -/
def EntityUser : String := "USER"

/-- Entity tag for orders. -/
def EntityOrder : String := "ORDER"

/-- Entity tag for products. -/
def EntityProduct : String := "PRODUCT"

/-! ## Item envelope -/

/-- The wire payload of an item: one of the supported entities.  This is the
structural counterpart of the `data` attribute map DynamoDB stores. -/
inductive EntityData where
  | user (u : User)
  | order (o : Order)
  | product (p : Product)
  deriving DecidableEq, Repr

/-- `GenericItem[T]` (src/internal/datastore/types.go lines 33-39): the
single-table envelope `{PK, SK, entity_type, data}`. -/
structure GenericItem (α : Type) where
  pk : String
  sk : String
  entityType : String
  data : α
  deriving DecidableEq, Repr

/-- A wire-level item as persisted in the table. -/
abbrev Item := GenericItem EntityData

/-- The external store's table: the list of persisted items, kept sorted by
(PK, SK) — DynamoDB's native key order. -/
abbrev Table := List Item

/-- A primary key pair (partition key, sort key). -/
abbrev KeyPair := String × String

/-- The (PK, SK) pair of an item. -/
def itemKey (it : Item) : KeyPair := (it.pk, it.sk)

/-- Lexicographic comparison of char lists (by code point).  Used to model
the store's byte ordering of keys; written structurally so that the kernel
can evaluate it on literals. -/
def charListLt : List Char → List Char → Bool
  | [], [] => false
  | [], _ :: _ => true
  | _ :: _, [] => false
  | c :: cs, d :: ds =>
    if c.toNat < d.toNat then true
    else if d.toNat < c.toNat then false
    else charListLt cs ds

/-- Lexicographic order on strings (the store's key ordering). -/
def strLt (a b : String) : Bool := charListLt a.data b.data

/-- Structural `isPrefixOf` on char lists. -/
def charListIsPre : List Char → List Char → Bool
  | [], _ => true
  | _ :: _, [] => false
  | c :: cs, d :: ds => c == d && charListIsPre cs ds

/-- `strIsPre a b`: the string `a` is a prefix of `b` (Go's
`strings.HasPrefix` / the store's `begins_with`). -/
def strIsPre (a b : String) : Bool := charListIsPre a.data b.data

/-- The store's key order: lexicographic on (PK, SK). -/
def keyLt (a b : KeyPair) : Bool :=
  strLt a.1 b.1 || (a.1 == b.1 && strLt a.2 b.2)

/-- Atomic put: overwrite the item at the exact key pair, otherwise insert
in key order (the external store's `PutItem` capability, spec section 6). -/
def tablePut (it : Item) : Table → Table
  | [] => [it]
  | x :: xs =>
    if itemKey it = itemKey x then it :: xs
    else if keyLt (itemKey it) (itemKey x) then it :: x :: xs
    else x :: tablePut it xs

/-- Point lookup at an exact key pair (the external store's `GetItem`
capability, spec section 6): the item or absent. -/
def tableGet (t : Table) (pk sk : String) : Option Item :=
  t.find? fun x => x.pk == pk && x.sk == sk

theorem charListLt_irrefl : ∀ l, charListLt l l = false
  | [] => rfl
  | c :: cs => by simp [charListLt, charListLt_irrefl cs]

theorem charListLt_trans :
    ∀ a b c, charListLt a b = true → charListLt b c = true →
      charListLt a c = true
  | [], [], _, hab, _ => by simp [charListLt] at hab
  | [], _ :: _, [], _, hbc => by simp [charListLt] at hbc
  | [], _ :: _, _ :: _, _, _ => rfl
  | _ :: _, [], _, hab, _ => by simp [charListLt] at hab
  | _ :: _, _ :: _, [], _, hbc => by simp [charListLt] at hbc
  | a :: as, b :: bs, c :: cs, hab, hbc => by
    simp only [charListLt] at hab hbc ⊢
    rcases Nat.lt_trichotomy a.toNat b.toNat with h1 | h1 | h1
    · rcases Nat.lt_trichotomy b.toNat c.toNat with h2 | h2 | h2
      · simp [Nat.lt_trans h1 h2]
      · simp [h2 ▸ h1]
      · simp [Nat.lt_asymm h2, h2] at hbc
    · simp only [h1, Nat.lt_irrefl, if_false] at hab
      rcases Nat.lt_trichotomy b.toNat c.toNat with h2 | h2 | h2
      · simp [h1 ▸ h2]
      · simp only [h2, Nat.lt_irrefl, if_false] at hbc
        simp only [h1, h2, Nat.lt_irrefl, if_false]
        exact charListLt_trans as bs cs hab hbc
      · simp [Nat.lt_asymm h2, h2] at hbc
    · simp [Nat.lt_asymm h1, h1] at hab

theorem charListLt_trichotomy :
    ∀ a b, charListLt a b = true ∨ a = b ∨ charListLt b a = true
  | [], [] => Or.inr (Or.inl rfl)
  | [], _ :: _ => Or.inl rfl
  | _ :: _, [] => Or.inr (Or.inr rfl)
  | a :: as, b :: bs => by
    rcases Nat.lt_trichotomy a.toNat b.toNat with h | h | h
    · exact Or.inl (by simp [charListLt, h])
    · have hab : a = b := by
        unfold Char.toNat at h
        exact Char.ext (UInt32.toNat.inj h)
      rcases charListLt_trichotomy as bs with h2 | h2 | h2
      · exact Or.inl (by simp [charListLt, h, Nat.lt_irrefl, h2])
      · exact Or.inr (Or.inl (by rw [hab, h2]))
      · exact Or.inr (Or.inr (by simp [charListLt, h, Nat.lt_irrefl, h2]))
    · exact Or.inr (Or.inr (by simp [charListLt, h]))

theorem strLt_irrefl (a : String) : strLt a a = false :=
  charListLt_irrefl a.data

theorem strLt_trans {a b c : String} (hab : strLt a b = true)
    (hbc : strLt b c = true) : strLt a c = true :=
  charListLt_trans a.data b.data c.data hab hbc

theorem strLt_trichotomy (a b : String) :
    strLt a b = true ∨ a = b ∨ strLt b a = true := by
  rcases charListLt_trichotomy a.data b.data with h | h | h
  · exact Or.inl h
  · refine Or.inr (Or.inl ?_)
    cases a; cases b
    exact congrArg String.mk h
  · exact Or.inr (Or.inr h)

theorem keyLt_cases {a b : KeyPair} (h : keyLt a b = true) :
    strLt a.1 b.1 = true ∨ (a.1 = b.1 ∧ strLt a.2 b.2 = true) := by
  simpa [keyLt, Bool.or_eq_true, Bool.and_eq_true, beq_iff_eq] using h

theorem keyLt_mk {a b : KeyPair}
    (h : strLt a.1 b.1 = true ∨ (a.1 = b.1 ∧ strLt a.2 b.2 = true)) :
    keyLt a b = true := by
  simpa [keyLt, Bool.or_eq_true, Bool.and_eq_true, beq_iff_eq] using h

theorem keyLt_irrefl (a : KeyPair) : keyLt a a = false := by
  simp [keyLt, strLt_irrefl]

theorem keyLt_trans {a b c : KeyPair} (hab : keyLt a b = true)
    (hbc : keyLt b c = true) : keyLt a c = true := by
  rcases keyLt_cases hab with h1 | ⟨e1, h1⟩ <;>
    rcases keyLt_cases hbc with h2 | ⟨e2, h2⟩
  · exact keyLt_mk (Or.inl (strLt_trans h1 h2))
  · exact keyLt_mk (Or.inl (e2 ▸ h1))
  · exact keyLt_mk (Or.inl (e1 ▸ h2))
  · exact keyLt_mk (Or.inr ⟨e1.trans e2, strLt_trans h1 h2⟩)

theorem keyLt_asymm {a b : KeyPair} (hab : keyLt a b = true) :
    keyLt b a = false := by
  by_contra h
  simp only [Bool.not_eq_false] at h
  have := keyLt_trans hab h
  rw [keyLt_irrefl] at this
  exact Bool.false_ne_true this

theorem keyLt_of_not {a b : KeyPair} (hne : a ≠ b)
    (hnlt : keyLt a b = false) : keyLt b a = true := by
  rcases strLt_trichotomy a.1 b.1 with h | h | h
  · exact absurd (keyLt_mk (Or.inl h)) (by simp [hnlt])
  · rcases strLt_trichotomy a.2 b.2 with h2 | h2 | h2
    · exact absurd (keyLt_mk (Or.inr ⟨h, h2⟩)) (by simp [hnlt])
    · exact absurd (Prod.ext h h2) hne
    · exact keyLt_mk (Or.inr ⟨h.symm, h2⟩)
  · exact keyLt_mk (Or.inl h)

/-- The table invariant: items are strictly sorted in the store's key
order (so each (PK, SK) pair occurs at most once). -/
def TableSorted (t : Table) : Prop :=
  t.Pairwise fun a b => keyLt (itemKey a) (itemKey b) = true

theorem mem_tablePut {a it : Item} : ∀ {t : Table},
    a ∈ tablePut it t → a = it ∨ a ∈ t
  | [], h => by simpa [tablePut] using h
  | x :: xs, h => by
    rw [tablePut] at h
    split at h
    · rcases List.mem_cons.mp h with h | h
      · exact Or.inl h
      · exact Or.inr (List.mem_cons_of_mem _ h)
    · split at h
      · rcases List.mem_cons.mp h with h | h
        · exact Or.inl h
        · exact Or.inr h
      · rcases List.mem_cons.mp h with h | h
        · exact Or.inr (h ▸ List.mem_cons_self x xs)
        · rcases mem_tablePut h with h | h
          · exact Or.inl h
          · exact Or.inr (List.mem_cons_of_mem _ h)

theorem tablePut_sorted {it : Item} : ∀ {t : Table},
    TableSorted t → TableSorted (tablePut it t)
  | [], _ => List.pairwise_singleton _ _
  | x :: xs, h => by
    rw [tablePut]
    rcases List.pairwise_cons.mp h with ⟨hx, hxs⟩
    split
    · next heq =>
      exact List.pairwise_cons.mpr ⟨fun b hb => heq ▸ hx b hb, hxs⟩
    · split
      · next hne hlt =>
        refine List.pairwise_cons.mpr ⟨?_, h⟩
        intro b hb
        rcases List.mem_cons.mp hb with rfl | hb
        · exact hlt
        · exact keyLt_trans hlt (hx b hb)
      · next hne hnlt =>
        refine List.pairwise_cons.mpr ⟨?_, tablePut_sorted hxs⟩
        intro b hb
        rcases mem_tablePut hb with rfl | hb
        · exact keyLt_of_not hne (by simpa using hnlt)
        · exact hx b hb

theorem tableGet_tablePut_self {it : Item} : ∀ {t : Table},
    tableGet (tablePut it t) it.pk it.sk = some it
  | [] => by simp [tablePut, tableGet, List.find?]
  | x :: xs => by
    rw [tablePut]
    split
    · simp [tableGet, List.find?]
    · split
      · simp [tableGet, List.find?]
      · next hne _ =>
        have hx : (x.pk == it.pk && x.sk == it.sk) = false := by
          have : ¬(x.pk = it.pk ∧ x.sk = it.sk) := by
            intro ⟨h1, h2⟩
            exact hne (by simp [itemKey, Prod.ext_iff, h1, h2])
          rcases Decidable.not_and_iff_or_not.mp this with h | h <;>
            simp [beq_iff_eq, h]
        simpa [tableGet, List.find?, hx] using
          (@tableGet_tablePut_self it xs)

theorem tableGet_eq_none {t : Table} {pk sk : String}
    (h : ∀ a ∈ t, ¬(a.pk = pk ∧ a.sk = sk)) : tableGet t pk sk = none := by
  refine List.find?_eq_none.mpr fun a ha => ?_
  have := h a ha
  rcases Decidable.not_and_iff_or_not.mp this with h' | h' <;> simp [beq_iff_eq, h']

/-! ## Error taxonomy (spec section 7; src error values) -/

/-- The repository layer's error outcomes: `ErrNotFound`
(src/internal/datastore/store.go line 16), validation failures returned by
`Validate`, marshal/unmarshal failures, and opaque store failures.  The
carried string is the Go error message. -/
inductive RepoError where
  | notFound
  | validation (msg : String)
  | serialization (msg : String)
  | store (msg : String)
  deriving DecidableEq, Repr

/-! ## Generic store access layer
(src/unnamed/part_002, src/internal/datastore/store.go) -/

/-- `PageToken` (src/internal/datastore/types.go lines 56-59): the (PK, SK)
of the last item returned in a page. -/
structure PageToken where
  pk : String
  sk : String
  deriving DecidableEq, Repr

/-- `QueryOptions` (src/internal/datastore/types.go lines 62-67). -/
structure QueryOptions where
  limit : Int
  pageToken : Option PageToken
  deriving DecidableEq, Repr

/-- Wire-level `QueryResult[T]` (src/internal/datastore/types.go lines
70-77): the returned page and the optional next-page token. -/
structure QueryResult where
  items : List Item
  nextPageToken : Option PageToken
  deriving DecidableEq, Repr

/-- Does an item match the query's key condition
`PK = :pk AND begins_with(SK, :sk)`? -/
def queryMatch (pk skPre : String) (it : Item) : Bool :=
  it.pk == pk && strIsPre skPre it.sk

/-- Is an item strictly after the exclusive start key (DynamoDB's
`ExclusiveStartKey` resumes strictly after the referenced key pair)? -/
def afterKey (st : Option KeyPair) (it : Item) : Bool :=
  match st with
  | none => true
  | some k => keyLt k (itemKey it)

/-- All items of the table matching the key condition and lying strictly
after the start key, in the table's (ascending) key order. -/
def matchesAfter (t : Table) (pk skPre : String) (st : Option KeyPair) :
    List Item :=
  t.filter fun it => queryMatch pk skPre it && afterKey st it

/-- What the external store returns for one `Query` call. -/
structure StoreQueryOutput where
  items : List Item
  lastEvaluatedKey : Option KeyPair
  deriving DecidableEq, Repr

/-- The external store's `Query` capability (spec sections 4.3 and 6),
modelled from the contract the spec requires: ascending sort-key order
within the partition; `Limit`, if given, caps the page; the
`LastEvaluatedKey` (key of the last returned item) is reported exactly when
matching items remain beyond the returned page; no limit returns the whole
matching range in one page. -/
def storeQuery (t : Table) (pk skPre : String) (lim : Option Nat)
    (st : Option KeyPair) : StoreQueryOutput :=
  let msA := matchesAfter t pk skPre st
  match lim with
  | none => ⟨msA, none⟩
  | some n =>
    if msA.length ≤ n then ⟨msA, none⟩
    else ⟨msA.take n, (msA[n-1]?).map itemKey⟩

/-- The `Limit` the datastore `Query` passes to the store: only set when
options are present and `opts.Limit > 0` (src/unnamed/part_002 lines
125-128). -/
def dsLimit : Option QueryOptions → Option Nat
  | none => none
  | some o => if 0 < o.limit then some o.limit.toNat else none

/-- The `ExclusiveStartKey` the datastore `Query` passes to the store: the
marshalled page token, when present (src/unnamed/part_002 lines 129-135). -/
def dsStart : Option QueryOptions → Option KeyPair
  | none => none
  | some o => o.pageToken.map fun tk => (tk.pk, tk.sk)

/-- The result-shaping tail of `Query` (src/unnamed/part_002 lines
143-164): unmarshal the returned items and the `LastEvaluatedKey` (which
becomes the next-page token, or nil when absent). -/
def queryShape (out : StoreQueryOutput) : QueryResult :=
  ⟨out.items, out.lastEvaluatedKey.map fun k => ⟨k.1, k.2⟩⟩

/-- `Query[T]` (src/unnamed/part_002 lines 114-165,
src/internal/datastore/store.go lines 141-192) run against the modelled
store: build the query input from the options, call the store, shape the
result. -/
def dsQuery (t : Table) (pk skPre : String) (opts : Option QueryOptions) :
    QueryResult :=
  queryShape (storeQuery t pk skPre (dsLimit opts) (dsStart opts))

/-- Decode the `data` attribute of a wire item as a `User`
(`attributevalue.UnmarshalMap` into `GenericItem[models.User]`); a payload
of a different shape is a decode failure. -/
def decodeUser : EntityData → Option User
  | .user u => some u
  | _ => none

/-- Decode the `data` attribute as an `Order`. -/
def decodeOrder : EntityData → Option Order
  | .order o => some o
  | _ => none

/-- Decode the `data` attribute as a `Product`. -/
def decodeProduct : EntityData → Option Product
  | .product p => some p
  | _ => none

/-- Decode a wire item into a typed envelope. -/
def decodeItem {α : Type} (dec : EntityData → Option α) (it : Item) :
    Option (GenericItem α) :=
  (dec it.data).map fun a => ⟨it.pk, it.sk, it.entityType, a⟩

/-- `PutItem[T]` (src/unnamed/part_002 lines 76-87,
src/internal/datastore/store.go lines 20-31) over the outcome of the single
`client.PutItem` call: marshalling (total in the model) is followed by the
write, and a failing write's error is returned to the caller as-is —
`return err`, with no added context. -/
def PutItemGo (clientResp : Except String Unit) : Except RepoError Unit :=
  match clientResp with
  | .error e => .error (.store e)
  | .ok _ => .ok ()

/-- `GetItem[T]` (src/unnamed/part_002 lines 90-111,
src/internal/datastore/store.go lines 34-55) over the outcome of the single
`client.GetItem` call: a failing call is wrapped as
`"failed to get item: "`, an absent item is `ErrNotFound`, and a payload
that cannot be decoded as `T` is a serialization failure. -/
def GetItemGo {α : Type} (dec : EntityData → Option α)
    (clientResp : Except String (Option Item)) :
    Except RepoError (GenericItem α) :=
  match clientResp with
  | .error e => .error (.store ("failed to get item: " ++ e))
  | .ok none => .error .notFound
  | .ok (some raw) =>
    match decodeItem dec raw with
    | none => .error (.serialization "failed to unmarshal item")
    | some item => .ok item

/-- `Query[T]`'s handling of the single `client.Query` call's outcome
(src/unnamed/part_002 lines 138-141): a failing call is wrapped as
`"failed to query items: "`; a successful one is shaped into the
`QueryResult`. -/
def QueryGo (clientResp : Except String StoreQueryOutput) :
    Except RepoError QueryResult :=
  match clientResp with
  | .error e => .error (.store ("failed to query items: " ++ e))
  | .ok out => .ok (queryShape out)

/-- `PutItem` against the modelled store: the write always succeeds and
overwrites the item at the envelope's key pair. -/
def dsPutItem (t : Table) (item : Item) : Except RepoError Unit × Table :=
  (.ok (), tablePut item t)

/-- `GetItem` against the modelled store: point lookup then decode. -/
def dsGetItem {α : Type} (dec : EntityData → Option α) (t : Table)
    (pk sk : String) : Except RepoError (GenericItem α) :=
  GetItemGo dec (.ok (tableGet t pk sk))

/-! ## Entity repositories (src/repository/user.go) -/

/-- `UserRepository.Put` (src/repository/user.go lines 24-35): validate,
derive keys, wrap in the tagged envelope, delegate to `PutItem`.  Returns
the Go error and the table state after the call. -/
def userRepoPut (u : User) (t : Table) : Except RepoError Unit × Table :=
  match u.validate with
  | some msg => (.error (.validation msg), t)
  | none =>
    dsPutItem t ⟨NewUserPK u.email, NewUserSK u.email, EntityUser, .user u⟩

/-- `UserRepository.Get` (src/repository/user.go lines 38-45): derive keys,
point lookup, unwrap the payload. -/
def userRepoGet (t : Table) (email : String) : Except RepoError User :=
  match dsGetItem decodeUser t (NewUserPK email) (NewUserSK email) with
  | .error e => .error e
  | .ok item => .ok item.data

/-- `OrderRepository.Put` (src/repository/user.go lines 178-189). -/
def orderRepoPut (o : Order) (t : Table) : Except RepoError Unit × Table :=
  match o.validate with
  | some msg => (.error (.validation msg), t)
  | none =>
    dsPutItem t
      ⟨NewUserPK o.userEmail, NewOrderSK o.orderID, EntityOrder, .order o⟩

/-- `ProductRepository.Put` (src/repository/user.go lines 108-119). -/
def productRepoPut (p : Product) (t : Table) :
    Except RepoError Unit × Table :=
  match p.validate with
  | some msg => (.error (.validation msg), t)
  | none =>
    dsPutItem t
      ⟨NewProductPK, NewProductSK p.productID, EntityProduct, .product p⟩

/-- `ProductRepository.Get` (src/repository/user.go lines 121-128). -/
def productRepoGet (t : Table) (productID : String) :
    Except RepoError Product :=
  match dsGetItem decodeProduct t NewProductPK (NewProductSK productID) with
  | .error e => .error e
  | .ok item => .ok item.data

/-- `OrdersPage` (src/repository/user.go lines 169-175). -/
structure OrdersPage where
  orders : List Order
  nextPageToken : Option PageToken
  deriving DecidableEq, Repr

/-- `ProductsPage` (src/repository/user.go lines 97-100). -/
structure ProductsPage where
  products : List Product
  nextPageToken : Option PageToken
  deriving DecidableEq, Repr

/-- Decode every returned wire item as an `Order` (the unmarshal loop of
`Query[models.Order]`); `none` when some payload is not an order. -/
def listDecodeOrders : List Item → Option (List Order)
  | [] => some []
  | it :: rest =>
    match decodeOrder it.data with
    | none => none
    | some o => (listDecodeOrders rest).map fun os => o :: os

/-- Decode every returned wire item as a `Product`. -/
def listDecodeProducts : List Item → Option (List Product)
  | [] => some []
  | it :: rest =>
    match decodeProduct it.data with
    | none => none
    | some p => (listDecodeProducts rest).map fun ps => p :: ps

/-- `OrderRepository.GetUserOrders` (src/repository/user.go lines 192-207):
query the user's partition with the `"ORDER#"` sort-key prefix, unwrap each
envelope's payload, repackage the cursor unchanged. -/
def getUserOrders (t : Table) (userEmail : String)
    (opts : Option QueryOptions) : Except RepoError OrdersPage :=
  let r := dsQuery t (NewUserPK userEmail) "ORDER#" opts
  match listDecodeOrders r.items with
  | none => .error (.serialization "failed to unmarshal item")
  | some os => .ok ⟨os, r.nextPageToken⟩

/-- `ProductRepository.All` (src/repository/user.go lines 130-145): query
the fixed catalog partition with the `"PRODUCT#"` prefix. -/
def productAll (t : Table) (opts : Option QueryOptions) :
    Except RepoError ProductsPage :=
  let r := dsQuery t NewProductPK "PRODUCT#" opts
  match listDecodeProducts r.items with
  | none => .error (.serialization "failed to unmarshal item")
  | some ps => .ok ⟨ps, r.nextPageToken⟩

/-- `datastore.UserRepository.Put`
(src/internal/datastore/repositories.go lines 24-32): builds the envelope
and calls `PutItem` directly — this variant performs NO validation. -/
def datastoreUserRepoPut (u : User) (t : Table) :
    Except RepoError Unit × Table :=
  dsPutItem t ⟨NewUserPK u.email, NewUserSK u.email, EntityUser, .user u⟩

/-! ## The root `package main` snapshot (src/models.go, src/types.go,
src/unnamed/part_004, src/unnamed/part_005) -/

/-- `main.Order` (src/models.go lines 26-33). -/
structure MainOrder where
  orderID : String
  userEmail : String
  status : String
  total : Rat
  createdAt : Nat
  products : List String
  deriving DecidableEq, Repr

/-- `main.Order.Validate` (src/models.go lines 35-43): checks ONLY the
order id and the user email; `some msg` models
`fmt.Errorf("%w: ...", ErrInvalidData)`. -/
def MainOrder.validate (o : MainOrder) : Option String :=
  if o.orderID = "" then some "invalid data: order_id is required"
  else if o.userEmail = "" then some "invalid data: user_email is required"
  else none

/-- `OrderStore.PutOrder` composed with `Store[Order].PutItem` of the root
snapshot (src/unnamed/part_005 lines 231-239 and 124-142): the store layer
validates via `item.Data.Validate()` and then writes the envelope keyed by
`NewUserPK(order.UserEmail)` / `NewOrderSK(order.OrderID)`. -/
def mainPutOrder (o : MainOrder) (t : List (GenericItem MainOrder)) :
    Except String Unit × List (GenericItem MainOrder) :=
  match o.validate with
  | some msg => (.error ("validation failed: " ++ msg), t)
  | none =>
    (.ok (),
      ⟨NewUserPK o.userEmail, NewOrderSK o.orderID, EntityOrder, o⟩ :: t)

/-! ## The pagination loop (the caller protocol of spec section 4.3, as in
src/main.go lines 103-130: re-query with each returned token until absent) -/

/-- Repeatedly issue `Query` with limit `l`, following each returned
next-page token until it is absent, concatenating the pages.  `fuel` bounds
the number of iterations (the Go loop runs until the token is nil). -/
def paginate (t : Table) (pk skPre : String) (l : Int) :
    Nat → Option PageToken → List Item
  | 0, _ => []
  | fuel + 1, tok =>
    let r := dsQuery t pk skPre (some ⟨l, tok⟩)
    match r.nextPageToken with
    | none => r.items
    | some tok2 => r.items ++ paginate t pk skPre l fuel (some tok2)

/-- The same loop at the repository level, through
`OrderRepository.GetUserOrders`; `none` when some call fails. -/
def paginateUserOrders (t : Table) (email : String) (l : Int) :
    Nat → Option PageToken → Option (List Order)
  | 0, _ => some []
  | fuel + 1, tok =>
    match getUserOrders t email (some ⟨l, tok⟩) with
    | .error _ => none
    | .ok page =>
      match page.nextPageToken with
      | none => some page.orders
      | some tok2 =>
        (paginateUserOrders t email l fuel (some tok2)).map
          fun os => page.orders ++ os

theorem matchesAfter_sorted {t : Table} {pk skPre : String}
    {st : Option KeyPair} (h : TableSorted t) :
    (matchesAfter t pk skPre st).Pairwise
      fun a b => keyLt (itemKey a) (itemKey b) = true :=
  h.sublist (List.filter_sublist t)

theorem matchesAfter_some {t : Table} {pk skPre : String} {k : KeyPair} :
    matchesAfter t pk skPre (some k) =
      (matchesAfter t pk skPre none).filter
        fun it => keyLt k (itemKey it) := by
  rw [matchesAfter, matchesAfter, List.filter_filter]
  exact List.filter_congr fun it _ => by
    simp [afterKey, Bool.and_comm]

theorem sorted_filter_gt :
    ∀ (ms : List Item),
      ms.Pairwise (fun a b => keyLt (itemKey a) (itemKey b) = true) →
      ∀ (i : Nat) (hi : i < ms.length),
        ms.filter (fun it => keyLt (itemKey ms[i]) (itemKey it)) =
          ms.drop (i + 1)
  | [], _, i, hi => absurd hi (by simp)
  | x :: rest, h, 0, _ => by
    rcases List.pairwise_cons.mp h with ⟨hx, _⟩
    rw [List.getElem_cons_zero, List.filter_cons, keyLt_irrefl]
    simpa using List.filter_eq_self.mpr fun y hy => hx y hy
  | x :: rest, h, i + 1, hi => by
    rcases List.pairwise_cons.mp h with ⟨hx, hrest⟩
    have hi' : i < rest.length := by simpa using hi
    have hmem : rest[i] ∈ rest := List.getElem_mem hi'
    rw [List.getElem_cons_succ, List.filter_cons,
      keyLt_asymm (hx _ hmem)]
    simpa using sorted_filter_gt rest hrest i hi'

theorem dsQuery_pos {t : Table} {pk skPre : String} {l : Int}
    {tok : Option PageToken} (hl : 0 < l) :
    dsQuery t pk skPre (some ⟨l, tok⟩) =
      (if (matchesAfter t pk skPre (dsStart (some ⟨l, tok⟩))).length ≤ l.toNat
       then ⟨matchesAfter t pk skPre (dsStart (some ⟨l, tok⟩)), none⟩
       else
         ⟨(matchesAfter t pk skPre (dsStart (some ⟨l, tok⟩))).take l.toNat,
           ((matchesAfter t pk skPre
               (dsStart (some ⟨l, tok⟩)))[l.toNat - 1]?).map
             fun it => ⟨it.pk, it.sk⟩⟩ : QueryResult) := by
  rw [dsQuery]
  have hlim : dsLimit (some ⟨l, tok⟩) = some l.toNat := by
    simp [dsLimit, hl]
  rw [hlim, storeQuery]
  split
  · rfl
  · simp only [queryShape, Option.map_map]
    rfl

theorem paginate_succ {t : Table} {pk skPre : String} {l : Int}
    {fuel : Nat} {tok : Option PageToken} :
    paginate t pk skPre l (fuel + 1) tok =
      match (dsQuery t pk skPre (some ⟨l, tok⟩)).nextPageToken with
      | none => (dsQuery t pk skPre (some ⟨l, tok⟩)).items
      | some tok2 =>
        (dsQuery t pk skPre (some ⟨l, tok⟩)).items ++
          paginate t pk skPre l fuel (some tok2) := rfl

theorem paginate_eq_drop {t : Table} {pk skPre : String}
    (hs : TableSorted t) {l : Int} (hl : 0 < l) :
    ∀ (fuel j : Nat) (tok : Option PageToken),
      matchesAfter t pk skPre (dsStart (some ⟨l, tok⟩)) =
        (matchesAfter t pk skPre none).drop j →
      (matchesAfter t pk skPre none).length - j ≤ fuel →
      paginate t pk skPre l fuel tok =
        (matchesAfter t pk skPre none).drop j
  | 0, j, tok, _, hfuel => by
    rw [paginate, List.drop_eq_nil_of_le (by omega)]
  | fuel + 1, j, tok, hrem, hfuel => by
    have hn : 0 < l.toNat := by omega
    rw [paginate_succ, dsQuery_pos hl, hrem]
    set ms := matchesAfter t pk skPre none with hms
    by_cases hle : (ms.drop j).length ≤ l.toNat
    · rw [if_pos hle]
    · rw [if_neg hle]
      have hjlen : j < ms.length := by
        rw [List.length_drop] at hle; omega
      have hidx : l.toNat - 1 < (ms.drop j).length := by
        rw [List.length_drop] at hle ⊢; omega
      have hidx' : j + (l.toNat - 1) < ms.length := by
        rw [List.length_drop] at hidx; omega
      rw [List.getElem?_eq_getElem hidx]
      rw [Option.map_some']
      have hkey : (ms.drop j)[l.toNat - 1] = ms[j + (l.toNat - 1)] :=
        List.getElem_drop ..
      have hnext :
          matchesAfter t pk skPre
              (dsStart (some ⟨l, some ⟨(ms.drop j)[l.toNat - 1].pk,
                (ms.drop j)[l.toNat - 1].sk⟩⟩)) =
            ms.drop (j + l.toNat) := by
        show matchesAfter t pk skPre
            (some ((ms.drop j)[l.toNat - 1].pk,
              (ms.drop j)[l.toNat - 1].sk)) = ms.drop (j + l.toNat)
        rw [matchesAfter_some]
        have : ((ms.drop j)[l.toNat - 1].pk, (ms.drop j)[l.toNat - 1].sk) =
            itemKey ms[j + (l.toNat - 1)] := by rw [hkey]; rfl
        rw [this, ← hms, sorted_filter_gt ms (matchesAfter_sorted hs) _ hidx']
        congr 1
        omega
      have hfuel' :
          (matchesAfter t pk skPre none).length - (j + l.toNat) ≤ fuel := by
        rw [← hms]; omega
      show List.take l.toNat (ms.drop j) ++
          paginate t pk skPre l fuel
            (some ⟨(ms.drop j)[l.toNat - 1].pk,
              (ms.drop j)[l.toNat - 1].sk⟩) =
          ms.drop j
      rw [paginate_eq_drop hs hl fuel (j + l.toNat) _ hnext hfuel']
      have hdd : ms.drop (j + l.toNat) = (ms.drop j).drop l.toNat := by
        rw [List.drop_drop, Nat.add_comm]
      rw [← hms, hdd, List.take_append_drop]

theorem listDecodeOrders_append : ∀ a b : List Item,
    listDecodeOrders (a ++ b) =
      (listDecodeOrders a).bind fun xs =>
        (listDecodeOrders b).map fun ys => xs ++ ys
  | [], b => by
    cases h : listDecodeOrders b <;> simp [listDecodeOrders, h]
  | it :: rest, b => by
    rw [List.cons_append]
    cases hdec : decodeOrder it.data with
    | none => simp [listDecodeOrders, hdec]
    | some o =>
      rw [listDecodeOrders, listDecodeOrders_append rest b]
      cases h1 : listDecodeOrders rest <;>
        cases h2 : listDecodeOrders b <;>
          simp [listDecodeOrders, hdec, h1, h2]

theorem paginateUserOrders_eq (t : Table) (email : String) (l : Int) :
    ∀ (fuel : Nat) (tok : Option PageToken),
      paginateUserOrders t email l fuel tok =
        listDecodeOrders (paginate t (NewUserPK email) "ORDER#" l fuel tok)
  | 0, tok => rfl
  | fuel + 1, tok => by
    rw [paginateUserOrders, paginate_succ, getUserOrders]
    cases hdec :
        listDecodeOrders
          (dsQuery t (NewUserPK email) "ORDER#" (some ⟨l, tok⟩)).items with
    | none =>
      cases htok :
          (dsQuery t (NewUserPK email) "ORDER#"
            (some ⟨l, tok⟩)).nextPageToken with
      | none => simp [hdec]
      | some tok2 => simp [listDecodeOrders_append, hdec]
    | some os =>
      cases htok :
          (dsQuery t (NewUserPK email) "ORDER#"
            (some ⟨l, tok⟩)).nextPageToken with
      | none => simp [hdec, htok]
      | some tok2 =>
        rw [listDecodeOrders_append, hdec,
          ← paginateUserOrders_eq t email l fuel (some tok2)]
        simp [htok]

theorem userRepoPut_valid {u : User} (hu : u.validate = none) (t : Table) :
    userRepoPut u t =
      (.ok (),
        tablePut ⟨NewUserPK u.email, NewUserSK u.email, EntityUser, .user u⟩
          t) := by
  rw [userRepoPut, hu]; rfl

theorem orderRepoPut_valid {o : Order} (ho : o.validate = none) (t : Table) :
    orderRepoPut o t =
      (.ok (),
        tablePut
          ⟨NewUserPK o.userEmail, NewOrderSK o.orderID, EntityOrder,
            .order o⟩ t) := by
  rw [orderRepoPut, ho]; rfl

theorem productRepoPut_valid {p : Product} (hp : p.validate = none)
    (t : Table) :
    productRepoPut p t =
      (.ok (),
        tablePut
          ⟨NewProductPK, NewProductSK p.productID, EntityProduct,
            .product p⟩ t) := by
  rw [productRepoPut, hp]; rfl

/-! ## Claims -/

/-- C1: for every valid entity E (User, Order, Product), after
`Repository.Put(E)` succeeds, a point `Get` at E's natural identifier
(email / (user email, order id) / product id) returns an entity deep-equal
to E, nested product-id list included.  Timestamps are stored losslessly in
the model, so equality is exact (a fortiori within any tolerance).  Orders
have no single-entity `Get` method in the source; their round-trip goes
through the generic `GetItem` at the keys derived from the order's natural
identifiers, exactly as `OrderRepository.Put` derives them. -/
theorem C1_put_get_roundtrip (u : User) (o : Order) (p : Product)
    (tu tord tp : Table) (hu : u.validate = none) (ho : o.validate = none)
    (hp : p.validate = none) :
    (userRepoPut u tu).1 = .ok () ∧
    userRepoGet (userRepoPut u tu).2 u.email = .ok u ∧
    (orderRepoPut o tord).1 = .ok () ∧
    (dsGetItem decodeOrder (orderRepoPut o tord).2 (NewUserPK o.userEmail)
        (NewOrderSK o.orderID)).map GenericItem.data = .ok o ∧
    (productRepoPut p tp).1 = .ok () ∧
    productRepoGet (productRepoPut p tp).2 p.productID = .ok p := by
  rw [userRepoPut_valid hu, orderRepoPut_valid ho, productRepoPut_valid hp]
  refine ⟨rfl, ?_, rfl, ?_, rfl, ?_⟩
  · rw [userRepoGet, dsGetItem,
      show (tableGet
        (tablePut
          ⟨NewUserPK u.email, NewUserSK u.email, EntityUser, .user u⟩ tu)
        (NewUserPK u.email) (NewUserSK u.email)) =
      some ⟨NewUserPK u.email, NewUserSK u.email, EntityUser, .user u⟩ from
      tableGet_tablePut_self]
    rfl
  · rw [dsGetItem,
      show (tableGet
        (tablePut
          ⟨NewUserPK o.userEmail, NewOrderSK o.orderID, EntityOrder,
            .order o⟩ tord)
        (NewUserPK o.userEmail) (NewOrderSK o.orderID)) =
      some ⟨NewUserPK o.userEmail, NewOrderSK o.orderID, EntityOrder,
        .order o⟩ from tableGet_tablePut_self]
    rfl
  · rw [productRepoGet, dsGetItem,
      show (tableGet
        (tablePut
          ⟨NewProductPK, NewProductSK p.productID, EntityProduct,
            .product p⟩ tp)
        NewProductPK (NewProductSK p.productID)) =
      some ⟨NewProductPK, NewProductSK p.productID, EntityProduct,
        .product p⟩ from tableGet_tablePut_self]
    rfl

/-- Witness for C1 at concrete valid entities and the empty table. -/
theorem C1_put_get_roundtrip_witness :
    User.validate ⟨"a@x.com", "A", 7⟩ = none ∧
    userRepoGet (userRepoPut ⟨"a@x.com", "A", 7⟩ []).2 "a@x.com" =
      .ok ⟨"a@x.com", "A", 7⟩ ∧
    productRepoGet (productRepoPut ⟨"P1", "toys", "Robot", 10, 3⟩ []).2 "P1" =
      .ok ⟨"P1", "toys", "Robot", 10, 3⟩ := by
  have h :=
    C1_put_get_roundtrip ⟨"a@x.com", "A", 7⟩
      ⟨"ORD1", "a@x.com", "PENDING", 100, ["PROD1"], 3⟩
      ⟨"P1", "toys", "Robot", 10, 3⟩ [] [] [] rfl rfl rfl
  exact ⟨rfl, h.2.1, h.2.2.2.2.2⟩

/-- C6: the key constructors are pure total functions of the identity
string with no validation and no failure mode, following the fixed
templates; the empty string is accepted as-is; calling a constructor twice
on the same identity yields identical strings (the constructors are
functions of the identity alone). -/
theorem C6_key_codec (e oid pid : String) :
    NewUserPK e = "USER#" ++ e ∧
    NewUserSK e = "PROFILE#" ++ e ∧
    NewOrderSK oid = "ORDER#" ++ oid ∧
    NewProductPK = "PRODUCT#ALL" ∧
    NewProductSK pid = "PRODUCT#" ++ pid ∧
    NewUserPK "" = "USER#" ∧
    NewUserSK "" = "PROFILE#" ∧
    NewUserPK e = NewUserPK e ∧
    NewUserSK e = NewUserSK e ∧
    NewOrderSK oid = NewOrderSK oid ∧
    NewProductSK pid = NewProductSK pid :=
  ⟨rfl, rfl, rfl, rfl, rfl, rfl, rfl, rfl, rfl, rfl, rfl⟩

/-- C10: `UserRepository.Get` applies no validation to its identity
argument: for every string (the empty string included) it performs the
point lookup at the keys derived from that string as-is — `Get("")` looks
up PK `"USER#"` and SK `"PROFILE#"` — returns `NotFound` when no item is
stored at those keys, and never returns a validation error. -/
theorem C10_get_no_validation (t : Table) (email : String) :
    userRepoGet t email =
      (GetItemGo decodeUser
        (.ok (tableGet t (NewUserPK email) (NewUserSK email)))).map
        GenericItem.data ∧
    NewUserPK "" = "USER#" ∧ NewUserSK "" = "PROFILE#" ∧
    ((∀ it ∈ t, ¬(it.pk = NewUserPK email ∧ it.sk = NewUserSK email)) →
      userRepoGet t email = .error .notFound) ∧
    (∀ msg, userRepoGet t email ≠ .error (.validation msg)) := by
  refine ⟨?_, rfl, rfl, ?_, ?_⟩
  · rw [userRepoGet, dsGetItem]
    cases GetItemGo decodeUser
        (.ok (tableGet t (NewUserPK email) (NewUserSK email))) <;> rfl
  · intro habsent
    rw [userRepoGet, dsGetItem, tableGet_eq_none habsent]
    rfl
  · intro msg
    rw [userRepoGet, dsGetItem]
    cases htg : tableGet t (NewUserPK email) (NewUserSK email) with
    | none => simp [GetItemGo]
    | some raw =>
      cases hdec : decodeItem decodeUser raw with
      | none => simp [GetItemGo, hdec]
      | some item => simp [GetItemGo, hdec]

/-- Witness for C10: `Get("")` on the empty table hits PK `"USER#"` /
SK `"PROFILE#"` and reports `NotFound`. -/
theorem C10_get_no_validation_witness :
    userRepoGet [] "" = .error .notFound :=
  (C10_get_no_validation [] "").2.2.2.1 (by simp)

/-- C4: `Get` on a never-written key pair returns the distinguished
`NotFound` outcome (so neither a generic error nor a zero-valued success),
while a query matching no items returns the empty sequence with no error
and an absent token — never `NotFound`. -/
theorem C4_notfound_distinction (t : Table) (pk sk skPre email : String)
    (opts : Option QueryOptions)
    (hget : ∀ it ∈ t, ¬(it.pk = pk ∧ it.sk = sk)) :
    dsGetItem decodeUser t pk sk = .error .notFound ∧
    (matchesAfter t pk skPre (dsStart opts) = [] →
      dsQuery t pk skPre opts = ⟨[], none⟩) ∧
    (matchesAfter t (NewUserPK email) "ORDER#" (dsStart opts) = [] →
      getUserOrders t email opts = .ok ⟨[], none⟩) := by
  refine ⟨?_, ?_, ?_⟩
  · rw [dsGetItem, tableGet_eq_none hget]
    rfl
  · intro hq
    rw [dsQuery]
    cases hL : dsLimit opts with
    | none => simp [storeQuery, hq, queryShape]
    | some n => simp [storeQuery, hq, queryShape]
  · intro hq
    rw [getUserOrders]
    have hq' : dsQuery t (NewUserPK email) "ORDER#" opts = ⟨[], none⟩ := by
      rw [dsQuery]
      cases hL : dsLimit opts with
      | none => simp [storeQuery, hq, queryShape]
      | some n => simp [storeQuery, hq, queryShape]
    rw [hq']
    rfl

/-- Witness for C4 on the empty table. -/
theorem C4_notfound_distinction_witness :
    dsGetItem decodeUser [] "USER#nobody@x.com" "PROFILE#nobody@x.com" =
      .error .notFound ∧
    getUserOrders [] "nobody@x.com" none = .ok ⟨[], none⟩ := by
  have h :=
    C4_notfound_distinction [] "USER#nobody@x.com" "PROFILE#nobody@x.com"
      "ORDER#" "nobody@x.com" none (by simp)
  exact ⟨h.1, h.2.2 rfl⟩

/-- C5 (code bug evaluation): `datastore.UserRepository.Put`
(src/internal/datastore/repositories.go lines 24-32) performs no
validation, so putting a user with an empty (missing) email — which the
entity's own `Validate` rejects, and which the accompanying test suite's
`TestUserRepository_Put` "invalid user - missing email" case expects to
fail — succeeds and writes the degenerate item (PK `"USER#"`, SK
`"PROFILE#"`) to the store instead of returning a `ValidationError`
before any I/O. -/
theorem C5_validation_gating_bug_eval :
    User.validate ⟨"", "Test User", 0⟩ = some "email is required" ∧
    (datastoreUserRepoPut ⟨"", "Test User", 0⟩ []).1 = .ok () ∧
    (datastoreUserRepoPut ⟨"", "Test User", 0⟩ []).2 =
      [⟨"USER#", "PROFILE#", "USER", .user ⟨"", "Test User", 0⟩⟩] :=
  ⟨rfl, rfl, rfl⟩

/-- C7 (counterexample): in the root `package main` snapshot
(src/models.go lines 35-43, src/unnamed/part_005), an order with an empty
product list — but non-empty order id and user email — passes entity
validation and is written by the store's `PutItem`, so "an order is valid
only if it has at least one product line; Put rejects any entity violating
[the rules] with a ValidationError" is false of that snapshot's code. -/
theorem C7_counterexample :
    MainOrder.validate ⟨"ORD1", "a@x.com", "PENDING", 100, 0, []⟩ = none ∧
    (⟨"ORD1", "a@x.com", "PENDING", 100, 0, []⟩ : MainOrder).products = [] ∧
    (mainPutOrder ⟨"ORD1", "a@x.com", "PENDING", 100, 0, []⟩ []).1 =
      .ok () ∧
    (mainPutOrder ⟨"ORD1", "a@x.com", "PENDING", 100, 0, []⟩ []).2 =
      [⟨"USER#a@x.com", "ORDER#ORD1", "ORDER",
        ⟨"ORD1", "a@x.com", "PENDING", 100, 0, []⟩⟩] :=
  ⟨rfl, rfl, rfl, rfl⟩

/-- C7 (amended): the `models`-package validators
(src/models/models.go), the ones the `repository`-package `Put` methods
run, enforce the claimed rules — an order passes validation only if its
order id, user email (and status) are non-empty and it has at least one
product line; a product passes only if (among its field-presence rules)
its price is strictly positive and its stock non-negative — and
`OrderRepository.Put` / `ProductRepository.Put` reject any entity failing
validation with the validation error, leaving the store untouched.  The
root `package main` snapshot's `Order.Validate` checks only the order id
and user email (see the counterexample). -/
theorem C7_validation_rules_amended :
    (∀ o : Order, o.validate = none →
      o.orderID ≠ "" ∧ o.userEmail ≠ "" ∧ o.products ≠ []) ∧
    (∀ p : Product, p.validate = none → 0 < p.price ∧ 0 ≤ p.stock) ∧
    (∀ (o : Order) (t : Table) (msg : String), o.validate = some msg →
      orderRepoPut o t = (.error (.validation msg), t)) ∧
    (∀ (p : Product) (t : Table) (msg : String), p.validate = some msg →
      productRepoPut p t = (.error (.validation msg), t)) := by
  refine ⟨?_, ?_, ?_, ?_⟩
  · intro o h
    rw [Order.validate] at h
    split_ifs at h with h1 h2 h3 h4
    exact ⟨h1, h2, fun hnil => h4 (by rw [hnil]; rfl)⟩
  · intro p h
    rw [Product.validate] at h
    split_ifs at h with h1 h2 h3 h4 h5
    exact ⟨lt_of_not_le h4, not_lt.mp h5⟩
  · intro o t msg h
    rw [orderRepoPut, h]
  · intro p t msg h
    rw [productRepoPut, h]

/-- Witness for the amended C7: an order with no product line is rejected
by `OrderRepository.Put` with the validation error and the store state is
unchanged. -/
theorem C7_validation_rules_amended_witness :
    orderRepoPut ⟨"ORD1", "a@x.com", "PENDING", 100, [], 0⟩ [] =
      (.error (.validation "at least one product is required"), []) :=
  C7_validation_rules_amended.2.2.1
    ⟨"ORD1", "a@x.com", "PENDING", 100, [], 0⟩ [] _ rfl

/-- C8 (counterexample): the generic `PutItem`
(src/unnamed/part_002 lines 82-86, src/internal/datastore/store.go lines
26-30) returns the store client's write error to the caller verbatim
(`return err`) — the error message carries no added context identifying
the failed operation, unlike the wrapped get/query errors — so "every
error from an underlying store call is wrapped with context identifying
the failed operation" is false for the put path. -/
theorem C8_counterexample :
    PutItemGo (.error "connection reset") =
      .error (.store "connection reset") ∧
    "connection reset" ≠ "failed to put item: connection reset" :=
  ⟨rfl, by decide⟩

/-- C8 (amended): errors from the get and query store calls are wrapped
with context identifying the failed operation (`"failed to get item: "`,
`"failed to query items: "`) and propagated; the put store call's error is
propagated to the caller unchanged (no wrapping); no error is swallowed
and no call is retried (each operation performs exactly one client call,
whose outcome is the `clientResp` argument here). -/
theorem C8_error_propagation_amended {α : Type}
    (dec : EntityData → Option α) (e : String) :
    GetItemGo dec (.error e) =
      .error (.store ("failed to get item: " ++ e)) ∧
    QueryGo (.error e) =
      .error (.store ("failed to query items: " ++ e)) ∧
    PutItemGo (.error e) = .error (.store e) :=
  ⟨rfl, rfl, rfl⟩

/-- The store states reachable through the `repository`-package Put
operations, starting from the empty table. -/
inductive ReachableTable : Table → Prop where
  | empty : ReachableTable []
  | putUser (u : User) {t : Table} :
      ReachableTable t → ReachableTable (userRepoPut u t).2
  | putOrder (o : Order) {t : Table} :
      ReachableTable t → ReachableTable (orderRepoPut o t).2
  | putProduct (p : Product) {t : Table} :
      ReachableTable t → ReachableTable (productRepoPut p t).2

/-- The single-table envelope invariant of one item: its PK and SK are the
key templates applied to the payload's own identity fields, and its
entity-type tag is the writing repository's tag. -/
def Conforms (it : Item) : Prop :=
  match it.data with
  | .user u =>
    it.pk = NewUserPK u.email ∧ it.sk = NewUserSK u.email ∧
      it.entityType = EntityUser
  | .order o =>
    it.pk = NewUserPK o.userEmail ∧ it.sk = NewOrderSK o.orderID ∧
      it.entityType = EntityOrder
  | .product p =>
    it.pk = NewProductPK ∧ it.sk = NewProductSK p.productID ∧
      it.entityType = EntityProduct

/-- C9: every item in any store state reachable through the repositories
conforms to the single-table envelope: keys derived from the entity's own
identity fields by the fixed templates, and the entity-type tag of the
writing repository. -/
theorem C9_envelope_invariant {t : Table} (h : ReachableTable t) :
    ∀ it ∈ t, Conforms it := by
  induction h with
  | empty => intro it hmem; simp at hmem
  | putUser u ht ih =>
    intro it hmem
    rw [userRepoPut] at hmem
    cases hu : User.validate u with
    | some msg => rw [hu] at hmem; exact ih it hmem
    | none =>
      rw [hu, dsPutItem] at hmem
      rcases mem_tablePut hmem with rfl | hmem
      · exact ⟨rfl, rfl, rfl⟩
      · exact ih it hmem
  | putOrder o ht ih =>
    intro it hmem
    rw [orderRepoPut] at hmem
    cases ho : Order.validate o with
    | some msg => rw [ho] at hmem; exact ih it hmem
    | none =>
      rw [ho, dsPutItem] at hmem
      rcases mem_tablePut hmem with rfl | hmem
      · exact ⟨rfl, rfl, rfl⟩
      · exact ih it hmem
  | putProduct p ht ih =>
    intro it hmem
    rw [productRepoPut] at hmem
    cases hp : Product.validate p with
    | some msg => rw [hp] at hmem; exact ih it hmem
    | none =>
      rw [hp, dsPutItem] at hmem
      rcases mem_tablePut hmem with rfl | hmem
      · exact ⟨rfl, rfl, rfl⟩
      · exact ih it hmem

/-- Witness for C9: the item written by a concrete user put into the empty
table conforms to the envelope. -/
theorem C9_envelope_invariant_witness :
    Conforms ⟨"USER#a@x.com", "PROFILE#a@x.com", "USER",
      .user ⟨"a@x.com", "A", 0⟩⟩ :=
  C9_envelope_invariant
    (ReachableTable.putUser ⟨"a@x.com", "A", 0⟩ ReachableTable.empty) _
    (by decide)

theorem mem_matchesAfter_pk {t : Table} {pk skPre : String}
    {st : Option KeyPair} {it : Item} (h : it ∈ matchesAfter t pk skPre st) :
    it.pk = pk := by
  rcases List.mem_filter.mp h with ⟨_, hcond⟩
  simp only [queryMatch, Bool.and_eq_true, beq_iff_eq] at hcond
  exact hcond.1.1

theorem matchesAfter_pairwise_sk {t : Table} {pk skPre : String}
    {st : Option KeyPair} (hs : TableSorted t) :
    (matchesAfter t pk skPre st).Pairwise
      fun a b => strLt a.sk b.sk = true := by
  refine (matchesAfter_sorted hs).imp_of_mem ?_
  intro a b ha hb hR
  rcases keyLt_cases hR with h1 | ⟨_, h2⟩
  · rw [show (itemKey a).1 = a.pk from rfl, show (itemKey b).1 = b.pk from rfl,
      mem_matchesAfter_pk ha, mem_matchesAfter_pk hb, strLt_irrefl] at h1
    exact absurd h1 Bool.false_ne_true
  · exact h2

theorem matchesAfter_nodup {t : Table} {pk skPre : String}
    {st : Option KeyPair} (hs : TableSorted t) :
    (matchesAfter t pk skPre st).Nodup := by
  refine (@matchesAfter_pairwise_sk t pk skPre st hs).imp ?_
  intro a b hR heq
  rw [heq, strLt_irrefl] at hR
  exact Bool.false_ne_true hR

/-- C2: for a partition holding N matching order items and a query limit
with 0 < limit < N, issuing `GetUserOrders` and repeatedly re-querying
with each returned next-page token until it is absent yields all N items,
each exactly once (the match list has no duplicates), in ascending
sort-key order; and supplying a page token resumes strictly after the item
that token references (the page after the token for the j-th match is the
next `limit` matches following it). -/
theorem C2_pagination_completeness (t : Table) (email : String) (l : Int)
    (fuel : Nat) (os : List Order) (hs : TableSorted t) (hl : 0 < l)
    (hN : l.toNat < (matchesAfter t (NewUserPK email) "ORDER#" none).length)
    (hfuel :
      (matchesAfter t (NewUserPK email) "ORDER#" none).length ≤ fuel)
    (hdec :
      listDecodeOrders (matchesAfter t (NewUserPK email) "ORDER#" none) =
        some os) :
    paginate t (NewUserPK email) "ORDER#" l fuel none =
      matchesAfter t (NewUserPK email) "ORDER#" none ∧
    paginateUserOrders t email l fuel none = some os ∧
    (matchesAfter t (NewUserPK email) "ORDER#" none).Pairwise
      (fun a b => strLt a.sk b.sk = true) ∧
    (matchesAfter t (NewUserPK email) "ORDER#" none).Nodup ∧
    ∀ (j : Nat)
      (hj : j < (matchesAfter t (NewUserPK email) "ORDER#" none).length),
      (dsQuery t (NewUserPK email) "ORDER#"
          (some ⟨l,
            some
              ⟨((matchesAfter t (NewUserPK email) "ORDER#" none)[j]).pk,
                ((matchesAfter t (NewUserPK email) "ORDER#"
                  none)[j]).sk⟩⟩)).items =
        ((matchesAfter t (NewUserPK email) "ORDER#" none).drop
          (j + 1)).take l.toNat := by
  have hpag :
      paginate t (NewUserPK email) "ORDER#" l fuel none =
        matchesAfter t (NewUserPK email) "ORDER#" none := by
    have h :=
      @paginate_eq_drop t (NewUserPK email) "ORDER#" hs l hl fuel 0 none
        (by simp [dsStart]) (by omega)
    simpa using h
  refine ⟨hpag, ?_, matchesAfter_pairwise_sk hs, matchesAfter_nodup hs, ?_⟩
  · rw [paginateUserOrders_eq, hpag, hdec]
  · intro j hj
    have hma :
        matchesAfter t (NewUserPK email) "ORDER#"
            (dsStart (some ⟨l,
              some
                ⟨((matchesAfter t (NewUserPK email) "ORDER#" none)[j]).pk,
                  ((matchesAfter t (NewUserPK email) "ORDER#"
                    none)[j]).sk⟩⟩)) =
          (matchesAfter t (NewUserPK email) "ORDER#" none).drop (j + 1) := by
      show matchesAfter t (NewUserPK email) "ORDER#"
          (some (((matchesAfter t (NewUserPK email) "ORDER#" none)[j]).pk,
            ((matchesAfter t (NewUserPK email) "ORDER#" none)[j]).sk)) = _
      rw [show ((((matchesAfter t (NewUserPK email) "ORDER#" none)[j]).pk,
          ((matchesAfter t (NewUserPK email) "ORDER#" none)[j]).sk)) =
          itemKey ((matchesAfter t (NewUserPK email) "ORDER#" none)[j])
          from rfl,
        matchesAfter_some,
        sorted_filter_gt _ (matchesAfter_sorted hs) j hj]
    rw [dsQuery_pos hl, hma]
    split
    · next hle => simp [List.take_of_length_le hle]
    · rfl

/-- Witness for C2: three orders under one user partition, limit 2,
following the token until absent returns all three orders in order. -/
theorem C2_pagination_completeness_witness :
    paginateUserOrders
        [⟨"USER#a@x.com", "ORDER#ORD1", "ORDER",
            .order ⟨"ORD1", "a@x.com", "PENDING", 100, ["PROD1"], 1⟩⟩,
          ⟨"USER#a@x.com", "ORDER#ORD2", "ORDER",
            .order ⟨"ORD2", "a@x.com", "COMPLETED", 200,
              ["PROD2", "PROD3"], 2⟩⟩,
          ⟨"USER#a@x.com", "ORDER#ORD3", "ORDER",
            .order ⟨"ORD3", "a@x.com", "PENDING", 300, ["PROD4"], 3⟩⟩]
        "a@x.com" 2 3 none =
      some [⟨"ORD1", "a@x.com", "PENDING", 100, ["PROD1"], 1⟩,
        ⟨"ORD2", "a@x.com", "COMPLETED", 200, ["PROD2", "PROD3"], 2⟩,
        ⟨"ORD3", "a@x.com", "PENDING", 300, ["PROD4"], 3⟩] :=
  (C2_pagination_completeness _ "a@x.com" 2 3 _
    (by simp only [TableSorted, List.pairwise_cons]; decide)
    (by decide) (by decide) (by decide) (by decide)).2.1

/-- C3: for a positive limit, the returned next-page token is present iff
the store holds more matching items beyond the returned page; a query with
no options, or a non-positive limit, or whose matches fit within the page,
returns an absent token; and the repository list operations
(`GetUserOrders`, `ProductRepository.All`) pass the cursor through from
the generic query unchanged. -/
theorem C3_token_iff_more (t : Table) (pk skPre email : String) (l : Int)
    (tok : Option PageToken) (opts : Option QueryOptions) (hl : 0 < l) :
    ((dsQuery t pk skPre (some ⟨l, tok⟩)).nextPageToken.isSome = true ↔
      (dsQuery t pk skPre (some ⟨l, tok⟩)).items.length <
        (matchesAfter t pk skPre (dsStart (some ⟨l, tok⟩))).length) ∧
    (dsQuery t pk skPre none).nextPageToken = none ∧
    (∀ (l2 : Int) (tok2 : Option PageToken), l2 ≤ 0 →
      (dsQuery t pk skPre (some ⟨l2, tok2⟩)).nextPageToken = none) ∧
    ((matchesAfter t pk skPre (dsStart (some ⟨l, tok⟩))).length ≤ l.toNat →
      (dsQuery t pk skPre (some ⟨l, tok⟩)).nextPageToken = none) ∧
    (∀ page, getUserOrders t email opts = .ok page →
      page.nextPageToken =
        (dsQuery t (NewUserPK email) "ORDER#" opts).nextPageToken) ∧
    (∀ page, productAll t opts = .ok page →
      page.nextPageToken =
        (dsQuery t NewProductPK "PRODUCT#" opts).nextPageToken) := by
  refine ⟨?_, ?_, ?_, ?_, ?_, ?_⟩
  · rw [dsQuery_pos hl]
    split
    · next hle => simp
    · next hgt =>
      have hidx : l.toNat - 1 <
          (matchesAfter t pk skPre (dsStart (some ⟨l, tok⟩))).length := by
        omega
      rw [List.getElem?_eq_getElem hidx, Option.map_some']
      simp [List.length_take]
      omega
  · simp [dsQuery, dsLimit, dsStart, storeQuery, queryShape]
  · intro l2 tok2 h2
    have hlim : dsLimit (some ⟨l2, tok2⟩) = none := by
      simp only [dsLimit]
      rw [if_neg (by omega)]
    rw [dsQuery, hlim, storeQuery]
    rfl
  · intro hle
    rw [dsQuery_pos hl, if_pos hle]
  · intro page h
    simp only [getUserOrders] at h
    cases hdec :
        listDecodeOrders
          (dsQuery t (NewUserPK email) "ORDER#" opts).items with
    | none => rw [hdec] at h; exact absurd h (by simp)
    | some os =>
      rw [hdec] at h
      simp only [Except.ok.injEq] at h
      rw [← h]
  · intro page h
    simp only [productAll] at h
    cases hdec :
        listDecodeProducts
          (dsQuery t NewProductPK "PRODUCT#" opts).items with
    | none => rw [hdec] at h; exact absurd h (by simp)
    | some ps =>
      rw [hdec] at h
      simp only [Except.ok.injEq] at h
      rw [← h]

/-- Witness for C3: with three matching items and limit 2 the token is
present. -/
theorem C3_token_iff_more_witness :
    (dsQuery
        [⟨"USER#a@x.com", "ORDER#ORD1", "ORDER",
            .order ⟨"ORD1", "a@x.com", "PENDING", 100, ["PROD1"], 1⟩⟩,
          ⟨"USER#a@x.com", "ORDER#ORD2", "ORDER",
            .order ⟨"ORD2", "a@x.com", "COMPLETED", 200,
              ["PROD2", "PROD3"], 2⟩⟩,
          ⟨"USER#a@x.com", "ORDER#ORD3", "ORDER",
            .order ⟨"ORD3", "a@x.com", "PENDING", 300, ["PROD4"], 3⟩⟩]
        "USER#a@x.com" "ORDER#" (some ⟨2, none⟩)).nextPageToken.isSome =
      true :=
  (C3_token_iff_more _ "USER#a@x.com" "ORDER#" "a@x.com" 2 none none
    (by decide)).1.mpr (by decide)

end SingleTable
